import Mathlib

/-!
Verification of the text-extraction and field-parsing pipeline of
`streamlit_app.py` (procurement-request register, SLEP Petorca).

The Python source is shallowly embedded over `List Char` / `String`.
Optional libraries (python-docx, pdfplumber, pytesseract + pdf2image) are
modelled as capability environments: `Option` encodes library availability,
`Except` encodes a call that raised.  Character classes follow Python's
regex classes at ASCII granularity (the labels and patterns in the source
are pure ASCII; Python's Unicode extensions of `\s`, `\w`, `\d` and
`str.lower` never interact with them on the claims settled here).
-/

namespace SolicitudesApp

/-- Python regex class `[ \t]` (the pattern used by `normalize_text`). -/
def isHT (c : Char) : Bool := c == ' ' || c == '\t'

/-- Python regex class `\s` at ASCII granularity: space, tab, newline,
carriage return, vertical tab, form feed.  Also the character set stripped
by Python's `str.strip()`. -/
def isPySpace (c : Char) : Bool :=
  c == ' ' || c == '\t' || c == '\n' || c == '\r' || c == '\x0b' || c == '\x0c'

/-- Python regex class `\d` at ASCII granularity. -/
def isAsciiDigit (c : Char) : Bool := '0' ≤ c && c ≤ '9'

/-- The predicate of the regex `\n{2,}` run-collapsing: a newline char. -/
def isNL (c : Char) : Bool := c == '\n'

/-- Generic model of `re.sub(r"C+", "r", t)` for a one-character class `C`
that contains `r`: every maximal run of `C`-characters is replaced by the
single character `r`.  (`re.sub(r"[ \t]+", " ", t)` is `collapseRuns isHT ' '`;
`re.sub(r"\n{2,}", "\n", t)` is `collapseRuns isNL '\n'`: a run of exactly one
`'\n'` is left alone by the regex and is mapped to itself here.) -/
def collapseRuns (p : Char → Bool) (r : Char) : List Char → List Char
  | [] => []
  | [c] => if p c then [r] else [c]
  | c :: d :: cs =>
    if p c && p d then collapseRuns p r (d :: cs)
    else (if p c then r else c) :: collapseRuns p r (d :: cs)

/-- `re.sub(r"[ \t]+", " ", t)`: collapse horizontal whitespace runs. -/
def collapseSpaces (l : List Char) : List Char := collapseRuns isHT ' ' l

/-- `re.sub(r"\n{2,}", "\n", t)`: collapse blank-line runs. -/
def collapseNewlines (l : List Char) : List Char := collapseRuns isNL '\n' l

/-- Python `str.strip()` on a character list (ASCII whitespace). -/
def pyStripL (l : List Char) : List Char :=
  ((l.dropWhile isPySpace).reverse.dropWhile isPySpace).reverse

/-- Python `str.strip()` on a `String`. -/
def pyStrip (s : String) : String := ⟨pyStripL s.toList⟩

/-- Source `normalize_text` (streamlit_app.py lines 28-31):
collapse `[ \t]+` to a single space, collapse `\n{2,}` to a single newline,
then strip leading/trailing whitespace. -/
def normalize_text (t : String) : String :=
  ⟨pyStripL (collapseNewlines (collapseSpaces t.toList))⟩

example : normalize_text "a  \t b\n\n\nc" = "a b\nc" := by decide
example : normalize_text "  \n " = "" := by decide

/-!
Regex engine for `find_after` (source lines 33-39).  The pattern is
`re.escape(label) ++ r"\s*[:\-]?\s*(.+)"` with `re.IGNORECASE`, run by
`re.search`: leftmost start position wins, and at a fixed position the
backtracking order is: outer `\s*` from greediest to empty; `[:\-]?`
present before absent; inner `\s*` from greediest to empty; `(.+)` needs
one non-newline character and, being last, captures greedily to the next
newline or end.
-/

/-- `(.+)` at the current position: fails on end of input or a newline,
otherwise captures greedily up to (excluding) the next newline. -/
def matchDotPlus (s : List Char) : Option (List Char) :=
  match s with
  | [] => none
  | c :: _ => if c == '\n' then none else some (s.takeWhile (fun x => x != '\n'))

/-- Try `f k`, `f (k-1)`, ..., `f 0`, returning the first success: the
backtracking order of a greedy `\s*` whose maximal extent is `k`. -/
def tryFrom (f : Nat → Option (List Char)) : Nat → Option (List Char)
  | 0 => f 0
  | k + 1 =>
    match f (k + 1) with
    | some g => some g
    | none => tryFrom f k

/-- `\s*(.+)` at the current position, with greedy backtracking on `\s*`. -/
def matchWsDot (s : List Char) : Option (List Char) :=
  tryFrom (fun k => matchDotPlus (s.drop k)) (s.takeWhile isPySpace).length

/-- `[:\-]\s*(.+)` at the current position (the branch of `[:\-]?` that
consumes a character). -/
def matchPunctWsDot (s : List Char) : Option (List Char) :=
  match s with
  | [] => none
  | c :: rest => if c == ':' || c == '-' then matchWsDot rest else none

/-- `\s*[:\-]?\s*(.+)` at the current position, in Python's backtracking
order. -/
def matchAfterLabel (s : List Char) : Option (List Char) :=
  tryFrom
    (fun k =>
      match matchPunctWsDot (s.drop k) with
      | some g => some g
      | none => matchWsDot (s.drop k))
    (s.takeWhile isPySpace).length

/-- Case-insensitive literal prefix match (Python `re.IGNORECASE` on an
ASCII label): on success returns the remainder of the text. -/
def dropPrefixCI : List Char → List Char → Option (List Char)
  | [], s => some s
  | _ :: _, [] => none
  | a :: as, c :: cs => if a.toLower == c.toLower then dropPrefixCI as cs else none

/-- The whole `find_after` pattern anchored at the current position:
the escaped label (case-insensitively), then `\s*[:\-]?\s*(.+)`. -/
def matchLabelAt (label : List Char) (s : List Char) : Option (List Char) :=
  match dropPrefixCI label s with
  | some rest => matchAfterLabel rest
  | none => none

/-- `re.search`: try the anchored matcher at every start position from the
left, including the empty suffix, returning the first success. -/
def searchFirst (m : List Char → Option (List Char)) : List Char → Option (List Char)
  | [] => m []
  | c :: cs =>
    match m (c :: cs) with
    | some g => some g
    | none => searchFirst m cs

/-- Source `find_after` (lines 33-39) with the default `maxlen = 400` the
source always uses: on a match, `m.group(1).strip().split("\n")[0].strip()`
truncated to 400 characters; on no match, the empty string. -/
def find_after (label : String) (text : String) : String :=
  match searchFirst (matchLabelAt label.toList) text.toList with
  | some g =>
    let v := pyStripL g
    let first := v.takeWhile (fun c => c != '\n')
    ⟨(pyStripL first).take 400⟩
  | none => ""

/-- Source `to_int_num` (lines 41-45): `None`/empty input gives `None`;
otherwise strip every non-`\d` character and convert if the remainder is a
non-empty digit string.  (`s.isdigit()` holds exactly when the filtered
remainder is non-empty, all its characters being digits by construction;
Python's unbounded non-negative digit literal is a `Nat`.) -/
def digitsVal (l : List Char) : Nat :=
  l.foldl (fun n c => 10 * n + (c.toNat - '0'.toNat)) 0

def to_int_num (s : String) : Option Nat :=
  if s = "" then none
  else
    let d := s.toList.filter isAsciiDigit
    if d.isEmpty then none else some (digitsVal d)

/-!
The date pattern of `extract_fields` (line 126):
`(\d{1,2}\s+de\s+\w+\s+de\s+\d{4})` with `re.IGNORECASE`.
`\w+` and `\s+` are implemented by maximal munch: backtracking a greedy
`\w+` (resp. `\s+`) leaves the engine at a word (resp. whitespace)
character where the following `\s+` (resp. literal `d`) fails, so only the
maximal extent can succeed.  `\d{1,2}` tries two digits then one; both
leave the engine inside a digit run whenever the run is longer, so a match
requires the maximal digit run at the position to have length 1 or 2. -/

/-- Python regex class `\w` at ASCII granularity. -/
def isWordChar (c : Char) : Bool := c.isAlphanum || c == '_'

/-- Consume a non-empty maximal run of `p`-characters. -/
def reqRun (p : Char → Bool) (s : List Char) : Option (List Char) :=
  if (s.takeWhile p).isEmpty then none else some (s.dropWhile p)

/-- Consume the literal `de` case-insensitively. -/
def matchDeCI : List Char → Option (List Char)
  | a :: b :: rest => if a.toLower == 'd' && b.toLower == 'e' then some rest else none
  | _ => none

/-- The date pattern anchored at the current position; on success returns
the full matched substring (`m.group(1)` is the whole match). -/
def matchDateAt (s : List Char) : Option (List Char) :=
  let ds := s.takeWhile isAsciiDigit
  if ds.length == 0 || 2 < ds.length then none
  else
    (reqRun isPySpace (s.drop ds.length)).bind fun r2 =>
    (matchDeCI r2).bind fun r3 =>
    (reqRun isPySpace r3).bind fun r4 =>
    (reqRun isWordChar r4).bind fun r5 =>
    (reqRun isPySpace r5).bind fun r6 =>
    (matchDeCI r6).bind fun r7 =>
    (reqRun isPySpace r7).bind fun r8 =>
    if (r8.take 4).length == 4 && (r8.take 4).all isAsciiDigit then
      some (s.take (s.length - r8.length + 4))
    else none

/-- The parsed field set (source `extract_fields` result dict, lines
132-138); `Monto Estimado` is optional, the other values are strings. -/
structure FieldSet where
  fechaDocumento : String
  solicitanteNombre : String
  unidadRequirente : String
  objetivo : String
  montoEstimado : Option Nat
deriving DecidableEq

/-- Source `extract_fields` (lines 124-138): normalize, then the date
regex, then three label-anchored captures, then the numeric coercion. -/
def extract_fields (text : String) : FieldSet :=
  let t := normalize_text text
  let fecha : String :=
    match searchFirst matchDateAt t.toList with
    | some m => ⟨m⟩
    | none => ""
  ⟨fecha,
   find_after "NOMBRE" t,
   find_after "REQUIRENTE (UNIDAD)" t,
   find_after "OBJETIVO" t,
   to_int_num (find_after "MONTO ESTIMADO" t)⟩

example : find_after "NOMBRE" "NOMBRE: Juana Pérez\nOTRO: x" = "Juana Pérez" := by decide
example : find_after "NOMBRE" "NOMBRE:" = ":" := by decide
example : find_after "NOMBRE" "NOMBRE:\nJuana Pérez" = "Juana Pérez" := by decide
example : find_after "NOMBRE" "sin etiqueta" = "" := by decide
example : to_int_num "$12.500.000" = some 12500000 := by decide
example : to_int_num "" = none := by decide
example : to_int_num "x-y" = none := by decide
example :
    searchFirst matchDateAt ("12 de mayo de 2024,").toList = some ("12 de mayo de 2024").toList := by
  decide
example : searchFirst matchDateAt ("123 de mayo de 2024").toList = some ("23 de mayo de 2024").toList := by
  decide
example : searchFirst matchDateAt ("sin fecha").toList = none := by decide
example : find_after "NOMBRE" "X NOMBRE\nNOMBRE: Juan" = "NOMBRE: Juan" := by decide
example : find_after "NOMBRE" "NOMBRE" = "" := by decide
example : find_after "NOMBRE" "NOMBRE  :  " = "" := by decide
example : find_after "NOMBRE" "NOMBRE:- x" = "- x" := by decide
example : find_after "NOMBRE" "aNOMBREb" = "b" := by decide
example : find_after "NOMBRE" "NOMBRE NOMBRE: ana" = "NOMBRE: ana" := by decide
example :
    find_after "REQUIRENTE (UNIDAD)" "requirente (unidad) - Adquisiciones\nfoo" = "Adquisiciones" := by
  decide
example : to_int_num "007" = some 7 := by decide
example :
    searchFirst matchDateAt ("1 dex de 2024").toList = none := by decide
example :
    searchFirst matchDateAt ("1 DE Mayo DE 1999x").toList = some ("1 DE Mayo DE 1999").toList := by
  decide

/-!
Document extractors (source lines 48-121).  The optional libraries are
capability environments: `none` means the import failed at module load, a
`some (Except.error e)` field means the library call raised `e` on this
input, and `some (Except.ok v)` carries what the library produced.
-/

/-- `re.sub(r"</w:p>", "\n", xml)`: replace every occurrence of the
literal paragraph-close tag (scanned left to right, non-overlapping) by a
newline. -/
def replaceParaClose : List Char → List Char
  | '<' :: '/' :: 'w' :: ':' :: 'p' :: '>' :: rest => '\n' :: replaceParaClose rest
  | c :: rest => c :: replaceParaClose rest
  | [] => []

/-- One step of the left-to-right scan of `re.sub(r"<[^>]+>", "", xml)`.
State: output so far, plus the pending characters since an unclosed `<`
(`none` when not inside a candidate tag).  `[^>]` also matches `<`, so a
second `<` does not restart the candidate; a `>` closes it, and the
candidate is deleted exactly when it has at least one character between
the brackets; `<>` is not a match and is emitted verbatim. -/
def stripTagsStep (st : List Char × Option (List Char)) (c : Char) :
    List Char × Option (List Char) :=
  match st.2 with
  | none => if c == '<' then (st.1, some ['<']) else (st.1 ++ [c], none)
  | some b =>
    if c == '>' then
      if 2 ≤ b.length then (st.1, none) else (st.1 ++ b ++ ['>'], none)
    else (st.1, some (b ++ [c]))

/-- `re.sub(r"<[^>]+>", "", xml)`: a candidate `<` that never finds a `>`
is kept verbatim (the regex cannot match it). -/
def stripTags (l : List Char) : List Char :=
  let st := l.foldl stripTagsStep ([], none)
  st.1 ++ st.2.getD []

/-- Emit one maximal whitespace run under `re.sub(r"\s+\n", "\n", text)`:
a match must lie inside a single maximal run and, scanning from the run's
start, `\s+` backtracks to end just before the run's last newline — so the
run is rewritten to a newline followed by its post-last-newline tail
exactly when it has a newline at index ≥ 1, and is kept verbatim
otherwise. -/
def flushWsRun (run : List Char) : List Char :=
  if '\n' ∈ run.tail then '\n' :: (run.reverse.takeWhile (fun c => c != '\n')).reverse
  else run

/-- One step of the scan for `re.sub(r"\s+\n", "\n", text)`: buffer the
current maximal whitespace run, flushing it at each non-whitespace
character. -/
def subWsNlStep (st : List Char × List Char) (c : Char) : List Char × List Char :=
  if isPySpace c then (st.1, st.2 ++ [c])
  else (st.1 ++ flushWsRun st.2 ++ [c], [])

/-- `re.sub(r"\s+\n", "\n", text)` (the final cleanup of the DOCX XML
fallback, source line 65). -/
def subWsNl (l : List Char) : List Char :=
  let st := l.foldl subWsNlStep ([], [])
  st.1 ++ flushWsRun st.2

example : ⟨replaceParaClose "<w:p>a</w:p>b</w:p>".toList⟩ = ("<w:p>a\nb\n" : String) := by decide
example : ⟨stripTags "<a>hi<b/>x".toList⟩ = ("hix" : String) := by decide
example : ⟨stripTags "a<b".toList⟩ = ("a<b" : String) := by decide
example : ⟨stripTags "x<>y<a<b>z".toList⟩ = ("x<>yz" : String) := by decide
example : ⟨subWsNl "a \n\nb \nc\nd  x".toList⟩ = ("a\nb\nc\nd  x" : String) := by decide
example : ⟨subWsNl " \r\n x<q".toList⟩ = ("\n x<q" : String) := by decide

/-- A structured DOCX document as `python-docx` presents it to the source:
paragraph texts in document order, and tables as rows of cell texts. -/
structure DocxDoc where
  paragraphs : List String
  tables : List (List (List String))
deriving DecidableEq

/-- Capability environment of `docx_to_text`: the `python-docx` read
(absent / raised / document) and the zip fallback (the decoded
`word/document.xml` entry, or the exception raised anywhere in the
`read`/`ZipFile`/`decode` block; `errors="ignore"` decoding is part of
what the environment delivers). -/
structure DocxEnv where
  docxLib : Option (Except String DocxDoc)
  zipXml : Except String String

/-- Text produced by the primary `python-docx` path (source lines 51-56):
every paragraph, then for every table and every row the trimmed cell texts
joined by `" | "`, all joined by newlines. -/
def docxPrimary (doc : DocxDoc) : String :=
  String.intercalate "\n"
    (doc.paragraphs ++
      (doc.tables.map (fun tb =>
        tb.map (fun row => String.intercalate " | " (row.map pyStrip)))).flatten)

/-- Text produced by the zip/XML fallback (source lines 60-66). -/
def docxFallback (xml : String) : String :=
  ⟨subWsNl (stripTags (replaceParaClose xml.toList))⟩

/-- Source `docx_to_text` (lines 48-69): the primary path runs when the
library imported and did not raise; otherwise the zip fallback; if that
also raises, the empty string. -/
def docx_to_text (env : DocxEnv) : String :=
  match env.docxLib with
  | some (Except.ok doc) => docxPrimary doc
  | _ =>
    match env.zipXml with
    | Except.ok xml => docxFallback xml
    | Except.error _ => ""

/-- An abstract rasterized page image (only ever passed back into the
recognizer). -/
abbrev PageImage := Nat

/-- The OCR capability pair (`pdf2image.convert_from_bytes` at a given
DPI, `pytesseract.image_to_string` at a given language). -/
structure OcrCap where
  convert_from_bytes : Nat → Except String (List PageImage)
  image_to_string : PageImage → String → Except String String

/-- Capability environment of `pdf_to_text` for one PDF input:
`plumber` is the pdfplumber stage (absent / raised / the per-page
`extract_text()` results, `none` for a page yielding no text), `ocr` the
OCR capability (absent when either `pytesseract` or `pdf2image` is
missing). -/
structure PdfEnv where
  plumber : Option (Except String (List (Option String)))
  ocr : Option OcrCap

/-- The pdfplumber stage text: `"\n".join(page.extract_text() or "" for
page in pdf.pages)`. -/
def plumberText (pages : List (Option String)) : String :=
  String.intercalate "\n" (pages.map (fun p => p.getD ""))

/-- The source's OCR loop (lines 84-86): recognize every image in order at
the given language, propagating the first exception. -/
def ocrImagesToText (cap : OcrCap) (lang : String) : List PageImage → Except String (List String)
  | [] => Except.ok []
  | img :: rest =>
    match cap.image_to_string img lang with
    | Except.error e => Except.error e
    | Except.ok s =>
      match ocrImagesToText cap lang rest with
      | Except.error e => Except.error e
      | Except.ok ss => Except.ok (s :: ss)

/-- Stage 2 of `pdf_to_text` (lines 81-91): rasterize at 300 DPI,
recognize with `lang="spa+eng"`, join per-page outputs with newline; any
raise yields the empty string, absence of the capability yields the empty
string.  The boolean records whether the OCR capability was invoked. -/
def ocrStage (env : PdfEnv) : String × Bool :=
  match env.ocr with
  | none => ("", false)
  | some cap =>
    match cap.convert_from_bytes 300 with
    | Except.error _ => ("", true)
    | Except.ok imgs =>
      match ocrImagesToText cap "spa+eng" imgs with
      | Except.error _ => ("", true)
      | Except.ok outs => (String.intercalate "\n" outs, true)

/-- Source `pdf_to_text` (lines 71-91) instrumented with the OCR
invocation flag: the pdfplumber text is final iff the stage did not raise
and its joined text is non-blank; otherwise stage 2 runs. -/
def pdf_to_text_core (env : PdfEnv) : String × Bool :=
  match env.plumber with
  | some (Except.ok pages) =>
    let txt := plumberText pages
    if pyStrip txt ≠ "" then (txt, false) else ocrStage env
  | some (Except.error _) => ocrStage env
  | none => ocrStage env

def pdf_to_text (env : PdfEnv) : String := (pdf_to_text_core env).1

def ocr_invoked (env : PdfEnv) : Bool := (pdf_to_text_core env).2

/-- The combined environment of one `extract_text_any` call. -/
structure ExtractEnv where
  docx : DocxEnv
  pdf : PdfEnv

/-- Source `extract_text_any` (lines 93-121): dispatch on the extension
tag, with the exact log strings of the source. -/
def extract_text_any (env : ExtractEnv) (ext : String) : String × List String :=
  if ext = "docx" then
    let text := docx_to_text env.docx
    let logs := ["DOCX leído (python-docx o fallback ZIP/XML)."]
    let logs := if pyStrip text = "" then logs ++ ["No se pudo extraer texto del DOCX."] else logs
    (text, logs)
  else if ext = "pdf" then
    let l1 :=
      if env.pdf.plumber.isSome then "Intentando PDF digital con pdfplumber…"
      else "pdfplumber no disponible; intentaré OCR…"
    let l2 :=
      if env.pdf.ocr.isSome then "OCR disponible (pytesseract + pdf2image)."
      else "OCR NO disponible. Revisa requirements.txt y packages.txt."
    let text := pdf_to_text env.pdf
    if pyStrip text ≠ "" then (text, [l1, l2, "Texto extraído (digital u OCR)."])
    else ("", [l1, l2, "No se pudo extraer texto (ni pdfplumber ni OCR)."])
  else ("", ["Extensión no soportada."])

example :
    docxFallback "<w:body><w:p><w:r>Hola  </w:r></w:p><w:p>Mundo\t</w:p></w:body>" = "Hola\nMundo\n" := by
  decide

/-!
Claims about the extractor dispatch.
-/

/-- Stage 1 of `pdf_to_text` did not produce the final answer: pdfplumber
is unavailable, or it raised, or its joined page text is blank. -/
def stage1Failed (env : PdfEnv) : Bool :=
  match env.plumber with
  | none => true
  | some (Except.error _) => true
  | some (Except.ok pages) => pyStrip (plumberText pages) == ""

/-- C2: when pdfplumber is available and extracting every page in order
(a text-less page contributing `""`) joined with newline is non-blank,
`pdf_to_text` returns exactly that joined string, and the OCR capability
is never invoked. -/
theorem pdf_layout_first (env : PdfEnv) (pages : List (Option String))
    (h1 : env.plumber = some (Except.ok pages))
    (h2 : pyStrip (plumberText pages) ≠ "") :
    pdf_to_text env = plumberText pages ∧ ocr_invoked env = false := by
  constructor <;> simp [pdf_to_text, ocr_invoked, pdf_to_text_core, h1, h2]

/-- A pdfplumber-successful environment paired with a live OCR stub, to
exercise `pdf_layout_first` concretely. -/
def ocrStub : OcrCap :=
  ⟨fun d => if d = 300 then Except.ok [0, 1] else Except.error "dpi",
   fun i lang =>
     if lang = "spa+eng" then Except.ok (if i = 0 then "pagina1" else "pagina2")
     else Except.error "lang"⟩

def envPlumberOk : PdfEnv := ⟨some (Except.ok [some "hola", none]), some ocrStub⟩

theorem pdf_layout_first_witness :
    pdf_to_text envPlumberOk = "hola\n" ∧ ocr_invoked envPlumberOk = false :=
  pdf_layout_first envPlumberOk [some "hola", none] rfl (by decide)

/-- C3: once stage 1 fails (unavailable, raised, or blank), the OCR stage
rasterizes at 300 DPI, recognizes every page with `lang="spa+eng"` and
returns the outputs joined by newline in page order even if blank; an OCR
raise yields `""`, and an absent OCR capability yields `""`. -/
theorem pdf_ocr_stage (env : PdfEnv) (h : stage1Failed env = true) :
    (∀ cap, env.ocr = some cap →
      (∀ imgs, cap.convert_from_bytes 300 = Except.ok imgs →
        (∀ outs, ocrImagesToText cap "spa+eng" imgs = Except.ok outs →
          pdf_to_text env = String.intercalate "\n" outs) ∧
        (∀ e, ocrImagesToText cap "spa+eng" imgs = Except.error e → pdf_to_text env = "")) ∧
      (∀ e, cap.convert_from_bytes 300 = Except.error e → pdf_to_text env = "")) ∧
    (env.ocr = none → pdf_to_text env = "") := by
  have hcore : pdf_to_text env = (ocrStage env).1 := by
    unfold pdf_to_text pdf_to_text_core
    unfold stage1Failed at h
    match henv : env.plumber with
    | none => simp
    | some (Except.error e) => simp
    | some (Except.ok pages) =>
      rw [henv] at h
      have hblank : pyStrip (plumberText pages) = "" := by
        simpa using h
      simp [hblank]
  refine ⟨fun cap hcap => ⟨fun imgs himgs => ⟨fun outs houts => ?_, fun e he => ?_⟩,
    fun e he => ?_⟩, fun hnone => ?_⟩ <;>
    rw [hcore] <;> simp [ocrStage]
  · rw [hcap]; simp [himgs, houts]
  · rw [hcap]; simp [himgs, he]
  · rw [hcap]; simp [he]
  · rw [hnone]

def envPlumberAbsent : PdfEnv := ⟨none, some ocrStub⟩

theorem pdf_ocr_stage_witness : pdf_to_text envPlumberAbsent = "pagina1\npagina2" :=
  (((pdf_ocr_stage envPlumberAbsent rfl).1 ocrStub rfl).1 [0, 1] rfl).1
    ["pagina1", "pagina2"] rfl

/-- C4: `docx_to_text` is the ordered fallback chain with "success = did
not raise": a structured read that did not raise is final (paragraph texts
in order, then per table and per row the trimmed cells joined by
`" | "`, rows on their own lines, all joined by newlines, even when
empty); if it raised (or the library is missing), the zip fallback decodes
`word/document.xml`, turns paragraph-close tags into newlines, strips the
remaining markup and collapses whitespace-before-newline; if that also
raised, the result is `""`. -/
theorem docx_fallback_chain (env : DocxEnv) :
    (∀ doc, env.docxLib = some (Except.ok doc) →
      docx_to_text env =
        String.intercalate "\n"
          (doc.paragraphs ++
            (doc.tables.map (fun tb =>
              tb.map (fun row => String.intercalate " | " (row.map pyStrip)))).flatten)) ∧
    ((env.docxLib = none ∨ ∃ e, env.docxLib = some (Except.error e)) →
      (∀ xml, env.zipXml = Except.ok xml →
        docx_to_text env = ⟨subWsNl (stripTags (replaceParaClose xml.toList))⟩) ∧
      (∀ e, env.zipXml = Except.error e → docx_to_text env = "")) := by
  refine ⟨fun doc hdoc => ?_, fun hfail => ⟨fun xml hxml => ?_, fun e hxml => ?_⟩⟩
  · simp [docx_to_text, hdoc, docxPrimary]
  · rcases hfail with h | ⟨e, h⟩ <;> simp [docx_to_text, h, hxml, docxFallback]
  · rcases hfail with h | ⟨e', h⟩ <;> simp [docx_to_text, h, hxml]

def docxDocSample : DocxDoc := ⟨["p1", "p2"], [[["a ", " b"], ["c"]], [["d"]]]⟩

def envDocxOk : DocxEnv := ⟨some (Except.ok docxDocSample), Except.error "zip"⟩

def envDocxBroken : DocxEnv := ⟨some (Except.error "bad docx"), Except.ok "<w:p>Hola</w:p>x"⟩

theorem docx_fallback_chain_witness :
    docx_to_text envDocxOk = "p1\np2\na | b\nc\nd" ∧
    docx_to_text envDocxBroken = "Hola\nx" := by
  constructor
  · rw [(docx_fallback_chain envDocxOk).1 docxDocSample rfl]; decide
  · rw [((docx_fallback_chain envDocxBroken).2 (Or.inr ⟨"bad docx", rfl⟩)).1
      "<w:p>Hola</w:p>x" rfl]
    decide

/-- C8: any extension tag other than `docx` and `pdf` yields empty text
plus exactly one diagnostic log entry, with no exception raised. -/
theorem extract_text_any_unsupported (env : ExtractEnv) (ext : String)
    (h1 : ext ≠ "docx") (h2 : ext ≠ "pdf") :
    extract_text_any env ext = ("", ["Extensión no soportada."]) ∧
    (extract_text_any env ext).2.length = 1 := by
  constructor <;> simp [extract_text_any, h1, h2]

def envSample : ExtractEnv := ⟨⟨none, Except.error "zip"⟩, ⟨none, none⟩⟩

theorem extract_text_any_unsupported_witness :
    extract_text_any envSample "txt" = ("", ["Extensión no soportada."]) ∧
    (extract_text_any envSample "txt").2.length = 1 :=
  extract_text_any_unsupported envSample "txt" (by decide) (by decide)

/-- The diagnostic messages that can close the log when no text came out. -/
def extractionFailMsgs : List String :=
  ["No se pudo extraer texto del DOCX.",
   "No se pudo extraer texto (ni pdfplumber ni OCR).",
   "Extensión no soportada."]

/-- C1: `extract_text_any` always returns a `(text, log)` pair with a
non-empty log (the embedding is a total function: every capability
failure is consumed by the environment, none escapes), a blank final text
always comes with an explanatory final log entry, and `extract_fields` is
a total function into `FieldSet`. -/
theorem extraction_never_raises (env : ExtractEnv) (ext : String) :
    (extract_text_any env ext).2 ≠ [] ∧
    (pyStrip (extract_text_any env ext).1 = "" →
      ∃ m, (extract_text_any env ext).2.getLast? = some m ∧ m ∈ extractionFailMsgs) ∧
    (∀ t : String, ∃ fs : FieldSet, extract_fields t = fs) := by
  refine ⟨?_, ?_, fun t => ⟨extract_fields t, rfl⟩⟩
  · by_cases hd : ext = "docx"
    · by_cases hb : pyStrip (docx_to_text env.docx) = "" <;>
        simp [extract_text_any, hd, hb]
    · by_cases hp : ext = "pdf"
      · by_cases hb : pyStrip (pdf_to_text env.pdf) = "" <;>
          simp [extract_text_any, hd, hp, hb]
      · simp [extract_text_any, hd, hp]
  · intro hblank
    by_cases hd : ext = "docx"
    · by_cases hb : pyStrip (docx_to_text env.docx) = ""
      · refine ⟨"No se pudo extraer texto del DOCX.", ?_, by decide⟩
        simp [extract_text_any, hd, hb]
      · have h1 : (extract_text_any env ext).1 = docx_to_text env.docx := by
          simp [extract_text_any, hd, hb]
        rw [h1] at hblank
        exact absurd hblank hb
    · by_cases hp : ext = "pdf"
      · by_cases hb : pyStrip (pdf_to_text env.pdf) = ""
        · refine ⟨"No se pudo extraer texto (ni pdfplumber ni OCR).", ?_, by decide⟩
          simp [extract_text_any, hd, hp, hb]
        · have h1 : (extract_text_any env ext).1 = pdf_to_text env.pdf := by
            simp [extract_text_any, hd, hp, hb]
          rw [h1] at hblank
          exact absurd hblank hb
      · refine ⟨"Extensión no soportada.", ?_, by decide⟩
        simp [extract_text_any, hd, hp]

theorem extraction_never_raises_witness :
    ∃ m, (extract_text_any envSample "pdf").2.getLast? = some m ∧ m ∈ extractionFailMsgs :=
  (extraction_never_raises envSample "pdf").2.1 (by decide)

/-- C6: the Estimated Amount field is the integer read off the non-digit-
stripped label capture exactly when that stripped remainder is non-empty,
and is absent otherwise; on `"MONTO ESTIMADO: $12.500.000"` it is
`12500000`. -/
theorem monto_estimado_coercion (t : String) :
    (extract_fields t).montoEstimado =
      (if (find_after "MONTO ESTIMADO" (normalize_text t)).toList.filter isAsciiDigit = []
       then none
       else
         some (digitsVal
           ((find_after "MONTO ESTIMADO" (normalize_text t)).toList.filter isAsciiDigit))) ∧
    (extract_fields "MONTO ESTIMADO: $12.500.000").montoEstimado = some 12500000 := by
  constructor
  · show to_int_num (find_after "MONTO ESTIMADO" (normalize_text t)) = _
    generalize find_after "MONTO ESTIMADO" (normalize_text t) = s
    by_cases h : s = ""
    · subst h; decide
    · simp only [to_int_num, h, if_false, List.isEmpty_iff]
  · decide

/-- C10: the `\s*` around the optional colon matches newlines, so a label
alone on its line captures the next line with text; and a label followed
by a colon and nothing else captures the colon itself by backtracking of
`[:\-]?`, not the empty string. -/
theorem label_whitespace_spans_newlines :
    (extract_fields "NOMBRE:\nJuana Pérez").solicitanteNombre = "Juana Pérez" ∧
    (extract_fields "NOMBRE:").solicitanteNombre = ":" ∧
    find_after "NOMBRE" "NOMBRE:\nJuana Pérez" = "Juana Pérez" ∧
    find_after "NOMBRE" "NOMBRE:" = ":" := by
  refine ⟨?_, ?_, ?_, ?_⟩ <;> decide

/-!
Leftmost-match characterization of the recursive `searchFirst` engine:
it returns the match at the least start position, expressed through
`List.findSome?` over the ascending position range.
-/

theorem isSome_false_eq_none {α : Type} {o : Option α} (h : o.isSome = false) : o = none := by
  cases o with
  | none => rfl
  | some a => simp at h

theorem searchFirst_eq_findSome (m : List Char → Option (List Char)) :
    ∀ l : List Char,
      searchFirst m l = (List.range (l.length + 1)).findSome? (fun i => m (l.drop i))
  | [] => by
    rw [searchFirst, show List.range (([] : List Char).length + 1) = [0] from rfl,
      List.findSome?_cons]
    cases hm : m [] <;> simp [hm]
  | c :: cs => by
    rw [searchFirst, List.length_cons, List.range_succ_eq_map, List.findSome?_cons]
    cases hm : m ((c :: cs).drop 0) with
    | some g => rw [List.drop_zero] at hm; rw [hm]
    | none =>
      rw [List.drop_zero] at hm
      rw [hm, List.findSome?_map, searchFirst_eq_findSome m cs]
      rfl

/-- A case-insensitive occurrence of `lab` somewhere in `s`. -/
def occursCI (lab : List Char) : List Char → Bool
  | [] => (dropPrefixCI lab []).isSome
  | c :: cs => (dropPrefixCI lab (c :: cs)).isSome || occursCI lab cs

theorem searchFirst_label_none (lab : List Char) :
    ∀ s : List Char, occursCI lab s = false → searchFirst (matchLabelAt lab) s = none
  | [], h => by
    have hd : dropPrefixCI lab [] = none := isSome_false_eq_none (by rw [occursCI] at h; exact h)
    simp [searchFirst, matchLabelAt, hd]
  | c :: cs, h => by
    rw [occursCI, Bool.or_eq_false_iff] at h
    have hd : dropPrefixCI lab (c :: cs) = none := isSome_false_eq_none h.1
    rw [searchFirst, matchLabelAt, hd]
    exact searchFirst_label_none lab cs h.2

theorem find_after_of_not_occurs (lab t : String)
    (h : occursCI lab.toList t.toList = false) : find_after lab t = "" := by
  rw [find_after, searchFirst_label_none lab.toList t.toList h]

theorem find_after_length_le (lab t : String) : (find_after lab t).length ≤ 400 := by
  rw [find_after]
  cases searchFirst (matchLabelAt lab.toList) t.toList with
  | none => decide
  | some g =>
    show (List.take 400 _).length ≤ 400
    rw [List.length_take]
    exact min_le_left _ _

/-- C5: each of the three string labels is resolved by a leftmost
case-insensitive label-anchored search (the `findSome?` form below runs
over start positions in ascending order), an absent label yields the empty
string, the capture is trimmed and truncated to 400 characters, and on
`"NOMBRE: Juana Pérez\nOTRO: x"` the Applicant Name is `"Juana Pérez"`
(the capture stops at the first line). -/
theorem label_anchored_fields (t : String) :
    (occursCI ("NOMBRE").toList (normalize_text t).toList = false →
      (extract_fields t).solicitanteNombre = "") ∧
    (occursCI ("REQUIRENTE (UNIDAD)").toList (normalize_text t).toList = false →
      (extract_fields t).unidadRequirente = "") ∧
    (occursCI ("OBJETIVO").toList (normalize_text t).toList = false →
      (extract_fields t).objetivo = "") ∧
    (extract_fields t).solicitanteNombre.length ≤ 400 ∧
    (extract_fields t).unidadRequirente.length ≤ 400 ∧
    (extract_fields t).objetivo.length ≤ 400 ∧
    (∀ L : String, find_after L t =
      (match (List.range (t.toList.length + 1)).findSome?
          (fun i => matchLabelAt L.toList (t.toList.drop i)) with
       | some g =>
         (⟨(pyStripL ((pyStripL g).takeWhile (fun c => c != '\n'))).take 400⟩ : String)
       | none => "")) ∧
    (extract_fields "NOMBRE: Juana Pérez\nOTRO: x").solicitanteNombre = "Juana Pérez" := by
  refine ⟨fun h => find_after_of_not_occurs _ _ h,
          fun h => find_after_of_not_occurs _ _ h,
          fun h => find_after_of_not_occurs _ _ h,
          find_after_length_le _ _, find_after_length_le _ _, find_after_length_le _ _,
          fun L => ?_, by decide⟩
  rw [find_after, searchFirst_eq_findSome]

theorem label_anchored_fields_witness :
    (extract_fields "hola").solicitanteNombre = "" ∧
    (extract_fields "hola").unidadRequirente = "" ∧
    (extract_fields "hola").objetivo = "" :=
  ⟨(label_anchored_fields "hola").1 (by decide),
   (label_anchored_fields "hola").2.1 (by decide),
   (label_anchored_fields "hola").2.2.1 (by decide)⟩

/-- C7: the Document Date field is the full leftmost match of the
`\d{1,2} de \w+ de \d{4}` pattern on the normalized text, and the empty
string when no position matches; the embedding is a total function, so no
exception arises in either case. -/
theorem document_date_field (t : String) :
    (extract_fields t).fechaDocumento =
      (match (List.range ((normalize_text t).toList.length + 1)).findSome?
          (fun i => matchDateAt ((normalize_text t).toList.drop i)) with
       | some m => (⟨m⟩ : String)
       | none => "") ∧
    ((List.range ((normalize_text t).toList.length + 1)).findSome?
        (fun i => matchDateAt ((normalize_text t).toList.drop i)) = none →
      (extract_fields t).fechaDocumento = "") := by
  have h1 : (extract_fields t).fechaDocumento =
      (match searchFirst matchDateAt (normalize_text t).toList with
       | some m => (⟨m⟩ : String)
       | none => "") := rfl
  rw [h1, searchFirst_eq_findSome]
  exact ⟨rfl, fun h => by rw [h]⟩

theorem document_date_field_witness : (extract_fields "sin fecha alguna").fechaDocumento = "" :=
  (document_date_field "sin fecha alguna").2 (by decide)

/-!
Idempotence of `normalize_text` (claim C9).  The invariants of a
normalized string: no two adjacent characters of the collapsed class
(`okPair`), every collapsed-class character is the replacement character,
and no leading/trailing whitespace.  Each `collapseRuns` pass establishes
its own invariant, the later passes and the final strip preserve it, and
on a string satisfying all invariants each pass is the identity.
-/

/-- No adjacent pair of `p`-characters (what a run-collapsing pass leaves
behind). -/
def okPair (p : Char → Bool) (a b : Char) : Prop := ¬(p a = true ∧ p b = true)

theorem collapseRuns_head (p : Char → Bool) (r : Char) :
    ∀ (c : Char) (l : List Char),
      (collapseRuns p r (c :: l)).head? = some (if p c then r else c)
  | c, [] => by rw [collapseRuns]; split <;> rfl
  | c, d :: l => by
    rw [collapseRuns]
    by_cases hc : p c = true <;> by_cases hd : p d = true <;>
      simp [hc, hd, collapseRuns_head p r d l]

theorem collapseRuns_mem (p : Char → Bool) (r : Char) :
    ∀ l : List Char, ∀ a ∈ collapseRuns p r l, a = r ∨ a ∈ l
  | [], a, ha => by rw [collapseRuns] at ha; cases ha
  | [c], a, ha => by
    rw [collapseRuns] at ha
    by_cases hc : p c = true <;> simp [hc] at ha <;> simp [ha]
  | c :: d :: l, a, ha => by
    rw [collapseRuns] at ha
    by_cases hcd : (p c && p d) = true
    · rw [if_pos hcd] at ha
      rcases collapseRuns_mem p r (d :: l) a ha with h | h
      · exact Or.inl h
      · exact Or.inr (List.mem_cons_of_mem c h)
    · rw [if_neg hcd] at ha
      rcases List.mem_cons.mp ha with h | h
      · by_cases hc : p c = true
        · rw [h, if_pos hc]; exact Or.inl rfl
        · rw [h, if_neg hc]; exact Or.inr (List.mem_cons_self c (d :: l))
      · rcases collapseRuns_mem p r (d :: l) a h with h2 | h2
        · exact Or.inl h2
        · exact Or.inr (List.mem_cons_of_mem c h2)

theorem collapseRuns_p_mem (p : Char → Bool) (r : Char) :
    ∀ l : List Char, ∀ a ∈ collapseRuns p r l, p a = true → a = r
  | [], a, ha, _ => by rw [collapseRuns] at ha; cases ha
  | [c], a, ha, hpa => by
    rw [collapseRuns] at ha
    by_cases hc : p c = true <;> simp [hc] at ha
    · exact ha
    · rw [ha] at hpa; exact absurd hpa hc
  | c :: d :: l, a, ha, hpa => by
    rw [collapseRuns] at ha
    by_cases hcd : (p c && p d) = true
    · rw [if_pos hcd] at ha
      exact collapseRuns_p_mem p r (d :: l) a ha hpa
    · rw [if_neg hcd] at ha
      rcases List.mem_cons.mp ha with h | h
      · by_cases hc : p c = true
        · rw [h, if_pos hc]
        · rw [h, if_neg hc] at hpa ⊢; exact absurd hpa hc
      · exact collapseRuns_p_mem p r (d :: l) a h hpa

theorem collapseRuns_chain (p : Char → Bool) (r : Char) :
    ∀ l : List Char, (collapseRuns p r l).Chain' (okPair p)
  | [] => by rw [collapseRuns]; exact List.chain'_nil
  | [c] => by rw [collapseRuns]; split <;> exact List.chain'_singleton _
  | c :: d :: l => by
    rw [collapseRuns]
    by_cases hcd : (p c && p d) = true
    · rw [if_pos hcd]; exact collapseRuns_chain p r (d :: l)
    · rw [if_neg hcd, List.chain'_cons']
      refine ⟨fun y hy => ?_, collapseRuns_chain p r (d :: l)⟩
      rw [collapseRuns_head p r d l, Option.mem_some_iff] at hy
      subst hy
      rw [Bool.and_eq_true, not_and] at hcd
      by_cases hc : p c = true
      · have hd : p d = false := by
          cases hpd : p d with
          | false => rfl
          | true => exact absurd hpd (hcd hc)
        rw [if_pos hc, if_neg (by simp [hd])]
        exact fun hcon => by rw [hd] at hcon; cases hcon.2
      · rw [if_neg hc]
        exact fun hcon => absurd hcon.1 hc

theorem collapseRuns_chain_preserve (p : Char → Bool) (r : Char) (R : Char → Char → Prop)
    (hsub : ∀ a b, R a b → R (if p a then r else a) (if p b then r else b)) :
    ∀ l : List Char, l.Chain' R → (collapseRuns p r l).Chain' R
  | [], _ => by rw [collapseRuns]; exact List.chain'_nil
  | [c], _ => by rw [collapseRuns]; split <;> exact List.chain'_singleton _
  | c :: d :: l, h => by
    have hcd := (List.chain'_cons.mp h).1
    have htail := (List.chain'_cons.mp h).2
    rw [collapseRuns]
    by_cases hb : (p c && p d) = true
    · rw [if_pos hb]; exact collapseRuns_chain_preserve p r R hsub (d :: l) htail
    · rw [if_neg hb, List.chain'_cons']
      refine ⟨fun y hy => ?_, collapseRuns_chain_preserve p r R hsub (d :: l) htail⟩
      rw [collapseRuns_head p r d l, Option.mem_some_iff] at hy
      subst hy
      exact hsub c d hcd

theorem collapseRuns_id (p : Char → Bool) (r : Char) :
    ∀ l : List Char, (∀ a ∈ l, p a = true → a = r) → l.Chain' (okPair p) →
      collapseRuns p r l = l
  | [], _, _ => by rw [collapseRuns]
  | [c], hmem, _ => by
    rw [collapseRuns]
    by_cases hc : p c = true
    · rw [if_pos hc, hmem c (List.mem_singleton_self c) hc]
    · rw [if_neg hc]
  | c :: d :: l, hmem, hch => by
    have hcd : ¬(p c && p d) = true := by
      rw [Bool.and_eq_true]
      exact fun hcon => (List.chain'_cons.mp hch).1 hcon
    rw [collapseRuns, if_neg hcd]
    have hrec := collapseRuns_id p r (d :: l)
      (fun a ha hpa => hmem a (List.mem_cons_of_mem c ha) hpa)
      (List.chain'_cons.mp hch).2
    rw [hrec]
    by_cases hc : p c = true
    · rw [if_pos hc, hmem c (List.mem_cons_self c (d :: l)) hc]
    · rw [if_neg hc]

theorem dropWhile_head_false (p : Char → Bool) :
    ∀ (l : List Char) (c : Char) (t : List Char), l.dropWhile p = c :: t → p c = false
  | [], c, t, h => by cases h
  | a :: l, c, t, h => by
    rw [List.dropWhile_cons] at h
    by_cases ha : p a = true
    · rw [if_pos ha] at h
      exact dropWhile_head_false p l c t h
    · rw [if_neg ha] at h
      injection h with h1 h2
      rw [← h1]
      cases hpa : p a with
      | false => rfl
      | true => exact absurd hpa ha

theorem dropWhile_idem (p : Char → Bool) (l : List Char) :
    (l.dropWhile p).dropWhile p = l.dropWhile p := by
  cases h : l.dropWhile p with
  | nil => rfl
  | cons c t =>
    rw [List.dropWhile_cons, dropWhile_head_false p l c t h]
    simp

theorem dropWhile_append_eq (p : Char → Bool) :
    ∀ l : List Char, ∃ t, t ++ l.dropWhile p = l
  | [] => ⟨[], rfl⟩
  | c :: l => by
    rw [List.dropWhile_cons]
    by_cases hc : p c = true
    · rw [if_pos hc]
      rcases dropWhile_append_eq p l with ⟨t, ht⟩
      exact ⟨c :: t, by rw [List.cons_append, ht]⟩
    · rw [if_neg hc]
      exact ⟨[], rfl⟩

/-- The back half of `str.strip()`. -/
def backStrip (l : List Char) : List Char := (l.reverse.dropWhile isPySpace).reverse

theorem pyStripL_eq (l : List Char) : pyStripL l = backStrip (l.dropWhile isPySpace) := rfl

theorem backStrip_append_eq (m : List Char) : ∃ s, backStrip m ++ s = m := by
  rcases dropWhile_append_eq isPySpace m.reverse with ⟨t, ht⟩
  refine ⟨t.reverse, ?_⟩
  have := congrArg List.reverse ht
  rw [List.reverse_append, List.reverse_reverse] at this
  exact this

theorem backStrip_idem (m : List Char) : backStrip (backStrip m) = backStrip m := by
  rw [backStrip, backStrip, List.reverse_reverse, dropWhile_idem]

theorem dropWhile_backStrip_dropWhile (l : List Char) :
    (backStrip (l.dropWhile isPySpace)).dropWhile isPySpace
      = backStrip (l.dropWhile isPySpace) := by
  cases h : backStrip (l.dropWhile isPySpace) with
  | nil => rfl
  | cons c t =>
    rcases backStrip_append_eq (l.dropWhile isPySpace) with ⟨s, hs⟩
    rw [h, List.cons_append] at hs
    have hc : isPySpace c = false := dropWhile_head_false isPySpace l c (t ++ s) hs.symm
    rw [List.dropWhile_cons, hc]
    simp

theorem pyStripL_idem (l : List Char) : pyStripL (pyStripL l) = pyStripL l := by
  rw [pyStripL_eq l, pyStripL_eq, dropWhile_backStrip_dropWhile, backStrip_idem]

theorem pyStripL_mem (l : List Char) : ∀ a ∈ pyStripL l, a ∈ l := by
  intro a ha
  rw [pyStripL_eq] at ha
  rcases backStrip_append_eq (l.dropWhile isPySpace) with ⟨s, hs⟩
  rcases dropWhile_append_eq isPySpace l with ⟨t, ht⟩
  have h1 : a ∈ l.dropWhile isPySpace := by
    rw [show l.dropWhile isPySpace = backStrip (l.dropWhile isPySpace) ++ s from hs.symm]
    exact List.mem_append_left s ha
  rw [show l = t ++ l.dropWhile isPySpace from ht.symm]
  exact List.mem_append_right t h1

theorem chain_append_right {R : Char → Char → Prop} {t m : List Char}
    (h : (t ++ m).Chain' R) : m.Chain' R := (List.chain'_append.mp h).2.1

theorem chain_append_left {R : Char → Char → Prop} {m s : List Char}
    (h : (m ++ s).Chain' R) : m.Chain' R := (List.chain'_append.mp h).1

theorem pyStripL_chain {R : Char → Char → Prop} (l : List Char)
    (h : l.Chain' R) : (pyStripL l).Chain' R := by
  rcases dropWhile_append_eq isPySpace l with ⟨t, ht⟩
  have h1 : (l.dropWhile isPySpace).Chain' R := chain_append_right (ht ▸ h)
  rcases backStrip_append_eq (l.dropWhile isPySpace) with ⟨s, hs⟩
  rw [pyStripL_eq]
  exact chain_append_left (hs ▸ h1)

theorem okHT_subst (a b : Char) (hab : okPair isHT a b) :
    okPair isHT (if isNL a then '\n' else a) (if isNL b then '\n' else b) := by
  by_cases ha : isNL a = true <;> by_cases hb : isNL b = true <;>
    simp only [ha, hb, if_true, if_false, ite_true, ite_false]
  · exact fun hcon => by cases hcon.1
  · exact fun hcon => by cases hcon.1
  · exact fun hcon => by cases hcon.2
  · exact hab

/-- The normalized character list of `normalize_text`. -/
def normalizeL (l : List Char) : List Char :=
  pyStripL (collapseNewlines (collapseSpaces l))

theorem normalizeL_chainHT (l : List Char) : (normalizeL l).Chain' (okPair isHT) := by
  refine pyStripL_chain _ ?_
  exact collapseRuns_chain_preserve isNL '\n' (okPair isHT) okHT_subst _
    (collapseRuns_chain isHT ' ' l)

theorem normalizeL_chainNL (l : List Char) : (normalizeL l).Chain' (okPair isNL) :=
  pyStripL_chain _ (collapseRuns_chain isNL '\n' (collapseSpaces l))

theorem normalizeL_memHT (l : List Char) :
    ∀ a ∈ normalizeL l, isHT a = true → a = ' ' := by
  intro a ha hpa
  have h1 : a ∈ collapseNewlines (collapseSpaces l) := pyStripL_mem _ a ha
  rcases collapseRuns_mem isNL '\n' (collapseSpaces l) a h1 with h | h
  · subst h; cases hpa
  · exact collapseRuns_p_mem isHT ' ' l a h hpa

theorem collapseSpaces_normalizeL (l : List Char) :
    collapseSpaces (normalizeL l) = normalizeL l :=
  collapseRuns_id isHT ' ' (normalizeL l) (normalizeL_memHT l) (normalizeL_chainHT l)

theorem collapseNewlines_normalizeL (l : List Char) :
    collapseNewlines (normalizeL l) = normalizeL l := by
  refine collapseRuns_id isNL '\n' (normalizeL l) (fun a _ hpa => ?_) (normalizeL_chainNL l)
  exact eq_of_beq hpa

theorem pyStripL_normalizeL (l : List Char) : pyStripL (normalizeL l) = normalizeL l :=
  pyStripL_idem (collapseNewlines (collapseSpaces l))

theorem normalizeL_idem (l : List Char) : normalizeL (normalizeL l) = normalizeL l := by
  rw [normalizeL, collapseSpaces_normalizeL, collapseNewlines_normalizeL,
    pyStripL_normalizeL]

/-- C9: `normalize_text` is idempotent, and is total on every string
including the empty string (it is a plain function of the input, here
evaluated at `""`). -/
theorem normalize_text_idempotent :
    (∀ t : String, normalize_text (normalize_text t) = normalize_text t) ∧
    normalize_text "" = "" := by
  refine ⟨fun t => ?_, by decide⟩
  show (⟨normalizeL (String.toList ⟨normalizeL t.toList⟩)⟩ : String) = ⟨normalizeL t.toList⟩
  rw [show String.toList ⟨normalizeL t.toList⟩ = normalizeL t.toList from rfl,
    normalizeL_idem]

end SolicitudesApp
